import Mathlib

/-!
Verification development for the `dos-actors` dataflow actor runtime.

The Rust sources are shallowly embedded:

* `src/src/actor.rs` — the actor, its `collect`/`distribute`/`set_data`/
  `disconnect` operations and the rate-aware `run` loop.  This file is the
  older revision of the crate: its `Actor<I, O, NI, NO>` owns
  `Option<Vec<Input<I, NI>>>` / `Option<Vec<Output<O, NO>>>` whose `Input`
  carries a `data` field and whose `Output` carries a cached `data` payload
  plus a list `tx` of channel senders, and its client trait
  (`src/src/clients/mod.rs`) has `consume`/`update`/`produce`.
* `src/src/io.rs` — the newer `Output::send` which itself calls the client's
  `write` and broadcasts the returned `Arc` to the fan-out list.

Channels are flume bounded/unbounded queues; we model a channel endpoint as a
FIFO buffer plus two booleans recording whether the sender and the receiver
endpoints are still alive.  All our channels behave as unbounded queues (a
send never suspends), so `join_all` over sends executes them in list order.
Every actor operation is instrumented with a trace of events so ordering
properties can be stated.
-/

namespace DosActors

/-- Trace events recorded by the instrumented actor operations:
receiving on input `idx`, handing data to the client's `consume`, calling
`update`, calling `produce`, and broadcasting the cached payload of output
`idx`. -/
inductive Event (I O : Type) where
  | recv (idx : Nat) (payload : I)
  | consume (data : List I)
  | update
  | produce (result : Option (List O))
  | send (idx : Nat) (payload : O)
  deriving Repr, DecidableEq

/-- The shape of an event, forgetting payloads but keeping port indices. -/
inductive Tag where
  | recvT (idx : Nat)
  | consumeT
  | updateT
  | produceT
  | sendT (idx : Nat)
  deriving Repr, DecidableEq

/-- Forgetful projection from events to tags. -/
def Event.tag {I O : Type} : Event I O → Tag
  | .recv idx _ => .recvT idx
  | .consume _ => .consumeT
  | .update => .updateT
  | .produce _ => .produceT
  | .send idx _ => .sendT idx

/-- One flume channel seen from an output's sender: the FIFO buffer of
payloads delivered so far (oldest first) and the liveness of the two
endpoints.  `senderOpen` turns `false` only when the `Sender` itself is
dropped; `receiverOpen` turns `false` when the downstream `Receiver` is
dropped. -/
structure TxChannel (O : Type) where
  sent : List O
  senderOpen : Bool
  receiverOpen : Bool
  deriving Repr, DecidableEq

/-- Legacy output port as used by `src/src/actor.rs`: a cached payload
`data` (an `Arc<Data<O>>` in Rust, replaced wholesale by `set_data`) and the
fan-out list `tx` of senders. -/
structure Output (O : Type) where
  data : O
  tx : List (TxChannel O)
  deriving Repr, DecidableEq

/-- Modelled from the spec: the legacy `Output::send` called by
`Actor::distribute` (its revision of `src/io.rs` is not in the tree; only
its caller `src/src/actor.rs` is).  Spec §4.4: broadcast a cheaply-clonable
reference of the cached payload to every sender; §4.2: a send to a channel
whose receiver is dropped returns `Err(Disconnected)`, surfaced as
`ActorError::DropSend`; sends to the still-open receivers succeed
(`join_all` drives every send future to completion before the errors are
collected).  Returns the updated output and whether every send succeeded. -/
def Output.send {O : Type} (o : Output O) : Output O × Bool :=
  ({ o with
      tx := o.tx.map fun c =>
        if c.receiverOpen then { c with sent := c.sent ++ [o.data] } else c },
    o.tx.all (·.receiverOpen))

/-- Input port as used by `src/src/actor.rs`: the last received payload
(`input.data`, read by `get_data`), the FIFO buffer of payloads not yet
received, and whether the upstream sender is still alive. -/
structure Input (I : Type) where
  data : I
  queue : List I
  senderOpen : Bool
  deriving Repr, DecidableEq

/-- Outcome of a single `recv` on an input port. -/
inductive RecvOutcome where
  | ok
  | closed
  | blocked
  deriving Repr, DecidableEq

/-- One `Input::recv`: flume delivers a buffered payload if there is one
(even if the sender is already gone), reports disconnection when the buffer
is empty and the sender is dropped, and otherwise suspends (`blocked`). -/
def Input.recv {I : Type} (inp : Input I) : Input I × RecvOutcome :=
  match inp.queue with
  | x :: rest => ({ inp with data := x, queue := rest }, .ok)
  | [] => (inp, if inp.senderOpen then .blocked else .closed)

/-- Error variants of the legacy `ActorError` enum used by
`src/src/actor.rs` (`DropRecv`, `DropSend`, `NoData`, `NoInputs`,
`NoOutputs`, `Disconnected`). -/
inductive ActorError where
  | dropRecv
  | dropSend
  | noData
  | noInputs
  | noOutputs
  | disconnected
  deriving Repr, DecidableEq

/-- How a loop body stops early: a returned error, a Rust panic, or an
await that can never complete in the single-actor model. -/
inductive Halt where
  | err (e : ActorError)
  | panicked
  | blocked
  deriving Repr, DecidableEq

/-- Result of running the actor loop with some amount of fuel: normal
return, early stop, or fuel exhausted while the loop was still live. -/
inductive RunExit where
  | ok
  | halt (h : Halt)
  | spin
  deriving Repr, DecidableEq

/-- The actor of `src/src/actor.rs`: optional input and output port lists.
The const generics `NI`/`NO` are modelled as fields `ni`/`no`. -/
structure Actor (I O : Type) where
  inputs : Option (List (Input I))
  outputs : Option (List (Output O))
  ni : Nat
  no : Nat
  deriving Repr, DecidableEq

/-- Rust `Actor::new`: both port lists absent, whatever the rates are. -/
def Actor.new (I O : Type) (ni no : Nat) : Actor I O :=
  { inputs := none, outputs := none, ni := ni, no := no }

/-- Applying `drop` to a mutable reference: the reference is consumed, the
referent is untouched.  `Actor::disconnect` iterates
`output.tx.iter_mut().for_each(drop)`, so `drop` receives `&mut Sender<..>`
values and the senders themselves stay alive. -/
def dropMutRef {O : Type} (c : TxChannel O) : TxChannel O := c

/-- Rust `Actor::disconnect` as written in `src/src/actor.rs` lines 74-81. -/
def Actor.disconnect {I O : Type} (a : Actor I O) : Actor I O :=
  { a with
    outputs := a.outputs.map fun outs =>
      outs.map fun o => { o with tx := o.tx.map dropMutRef } }

/-- The `zip`-based payload assignment of `Actor::set_data`: pairs are
formed up to the shorter of the two lists, outputs beyond the data keep
their cached payload, data beyond the outputs is dropped. -/
def setDataList {O : Type} : List (Output O) → List O → List (Output O)
  | o :: os, d :: ds => { o with data := d } :: setDataList os ds
  | os, _ => os

/-- Rust `Actor::set_data`: `self.outputs.as_mut().unwrap()` panics when the
output list is absent, hence the `Option` result (`none` = panic). -/
def Actor.set_data {I O : Type} (a : Actor I O) (newData : List O) :
    Option (Actor I O) :=
  a.outputs.map fun outs => { a with outputs := some (setDataList outs newData) }

/-- Rust `Actor::get_data`: the vector of each input's last received payload. -/
def get_data {I : Type} (ins : List (Input I)) : List I :=
  ins.map (·.data)

/-- Status of the sequential receive pass of `Actor::collect`: every recv
succeeded, some recv reported a dropped sender (the pass still visits the
remaining inputs), or the pass is stuck awaiting an open-but-empty
channel. -/
inductive RecvStatus where
  | allOk
  | closedSeen
  | stuck
  deriving Repr, DecidableEq

/-- The sequential `for input in inputs { results.push(input.recv().await) }`
of `Actor::collect`, numbering inputs from `idx`.  A `closed` outcome is
pushed as an `Err` and the loop continues; an empty-but-open channel blocks
the loop right there. -/
def recvAll {I O : Type} (idx : Nat) :
    List (Input I) → List (Input I) × List (Event I O) × RecvStatus
  | [] => ([], [], .allOk)
  | inp :: rest =>
    match inp.recv with
    | (inp', .blocked) => (inp' :: rest, [], .stuck)
    | (inp', .ok) =>
      let (rest', evs, st) := recvAll (idx + 1) rest
      (inp' :: rest', .recv idx inp'.data :: evs, st)
    | (inp', .closed) =>
      let (rest', evs, st) := recvAll (idx + 1) rest
      (inp' :: rest', evs, if st = .stuck then .stuck else .closedSeen)

/-- Rust `Actor::collect` (`src/src/actor.rs` lines 83-109): receive every input
in registration order, then either return the gathered data, or — when some
recv returned `DropRecv` — call `disconnect` and return the error. -/
def Actor.collect {I O : Type} (a : Actor I O) :
    Actor I O × List (Event I O) × Except Halt (List I) :=
  match a.inputs with
  | none => (a, [], .error (.err .noInputs))
  | some ins =>
    let (ins', evs, st) := recvAll 0 ins
    let a' := { a with inputs := some ins' }
    match st with
    | .stuck => (a', evs, .error .blocked)
    | .closedSeen => (a'.disconnect, evs, .error (.err .dropRecv))
    | .allOk => (a', evs, .ok (get_data ins'))

/-- The `join_all` over `outputs.iter().map(|output| output.send())` of
`Actor::distribute`, numbering outputs from `idx`.  With queue channels a
send never suspends, so the futures complete in list order; every send runs
and the errors are collected afterwards. -/
def sendAll {I O : Type} (idx : Nat) :
    List (Output O) → List (Output O) × List (Event I O) × Bool
  | [] => ([], [], true)
  | o :: os =>
    let (o', sendOk) := o.send
    let (os', evs, restOk) := sendAll (idx + 1) os
    (o' :: os', .send idx o.data :: evs, sendOk && restOk)

/-- Rust `Actor::distribute` (`src/src/actor.rs` lines 111-130): with `Some`
data, first `set_data` (which unwraps the output list and panics when it is
absent), then the — consequently unreachable — `ok_or(NoOutputs)` check,
then send every output; with `None`, `disconnect` and return
`Disconnected`. -/
def Actor.distribute {I O : Type} (a : Actor I O) (data : Option (List O)) :
    Actor I O × List (Event I O) × Except Halt Unit :=
  match data with
  | some ds =>
    match a.set_data ds with
    | none => (a, [], .error .panicked)
    | some a' =>
      match a'.outputs with
      | none => (a', [], .error (.err .noOutputs))
      | some outs =>
        let (outs', evs, allOk) := sendAll 0 outs
        ({ a' with outputs := some outs' }, evs,
          if allOk then .ok () else .error (.err .dropSend))
  | none => (a.disconnect, [], .error (.err .disconnected))

/-- The client trait of `src/src/clients/mod.rs`: `consume` the gathered
inputs, `update` the internal state, `produce` the optional outputs.  The
mutable receiver is modelled by threading a state `σ`. -/
structure Client (σ I O : Type) where
  consume : σ → List I → σ
  update : σ → σ
  produce : σ → σ × Option (List O)

/-- The `client.consume(self.collect().await?).update()` step shared by the
decimation, upsampling and terminator loop bodies: collect, then hand the
gathered data to `consume` and call `update`. -/
def collectConsume {σ I O : Type} (c : Client σ I O) :
    σ × Actor I O → σ × Actor I O × List (Event I O) × Option Halt
  | (s, a) =>
    match a.collect with
    | (a', evs, .error h) => (s, a', evs, some h)
    | (a', evs, .ok data) =>
      (c.update (c.consume s data), a', evs ++ [.consume data, .update], none)

/-- The `self.distribute(client.produce()).await?` step of the decimation
and upsampling loop bodies. -/
def produceDistribute {σ I O : Type} (c : Client σ I O) :
    σ × Actor I O → σ × Actor I O × List (Event I O) × Option Halt
  | (s, a) =>
    let (s', res) := c.produce s
    match a.distribute res with
    | (a', evs, .error h) => (s', a', .produce res :: evs, some h)
    | (a', evs, .ok _) => (s', a', .produce res :: evs, none)

/-- The `self.distribute(client.update().produce()).await?` body of the
initiator loop. -/
def initBody {σ I O : Type} (c : Client σ I O) :
    σ × Actor I O → σ × Actor I O × List (Event I O) × Option Halt
  | (s, a) =>
    let s1 := c.update s
    let (s2, res) := c.produce s1
    match a.distribute res with
    | (a', evs, .error h) => (s2, a', .update :: .produce res :: evs, some h)
    | (a', evs, .ok _) => (s2, a', .update :: .produce res :: evs, none)

/-- A bounded `for _ in 0..n` over a fallible step: stop at the first halt,
concatenating the traces. -/
def repeatStep {σ I O : Type}
    (f : σ × Actor I O → σ × Actor I O × List (Event I O) × Option Halt) :
    Nat → σ × Actor I O → σ × Actor I O × List (Event I O) × Option Halt
  | 0, (s, a) => (s, a, [], none)
  | n + 1, (s, a) =>
    match f (s, a) with
    | (s', a', evs, some h) => (s', a', evs, some h)
    | (s', a', evs, none) =>
      let (s'', a'', evs', r) := repeatStep f n (s', a')
      (s'', a'', evs ++ evs', r)

/-- One iteration of the decimation loop (`NO >= NI`, both port lists
present): repeat `NO / NI` times collect-consume-update, then
produce-distribute once. -/
def decimBody {σ I O : Type} (c : Client σ I O) (reps : Nat) :
    σ × Actor I O → σ × Actor I O × List (Event I O) × Option Halt
  | (s, a) =>
    match repeatStep (collectConsume c) reps (s, a) with
    | (s', a', evs, some h) => (s', a', evs, some h)
    | (s', a', evs, none) =>
      let (s'', a'', evs', r) := produceDistribute c (s', a')
      (s'', a'', evs ++ evs', r)

/-- One iteration of the upsampling loop (`NI > NO`, both port lists
present): collect-consume-update once, then repeat `NI / NO` times
produce-distribute. -/
def upsampleBody {σ I O : Type} (c : Client σ I O) (reps : Nat) :
    σ × Actor I O → σ × Actor I O × List (Event I O) × Option Halt
  | (s, a) =>
    match collectConsume c (s, a) with
    | (s', a', evs, some h) => (s', a', evs, some h)
    | (s', a', evs, none) =>
      let (s'', a'', evs', r) := repeatStep (produceDistribute c) reps (s', a')
      (s'', a'', evs ++ evs', r)

/-- The `loop { .. }` of `Actor::run`, with fuel bounding the number of
iterations we observe; the Rust loop only leaves through an error. -/
def loopBody {σ I O : Type}
    (body : σ × Actor I O → σ × Actor I O × List (Event I O) × Option Halt) :
    Nat → σ × Actor I O → σ × Actor I O × List (Event I O) × RunExit
  | 0, (s, a) => (s, a, [], .spin)
  | n + 1, (s, a) =>
    match body (s, a) with
    | (s', a', evs, some h) => (s', a', evs, .halt h)
    | (s', a', evs, none) =>
      let (s'', a'', evs', r) := loopBody body n (s', a')
      (s'', a'', evs ++ evs', r)

/-- Rust `Actor::run` (`src/src/actor.rs` lines 135-171): dispatch on the
presence of the port lists; with both present, decimate when `NO >= NI`
(note that `0..NO / NI` panics on a zero `NI`) and upsample otherwise
(`0..NI / NO` panics on a zero `NO`); with only outputs run the initiator
loop; with only inputs the terminator loop; with neither return `Ok(())`
immediately, invoking no client capability. -/
def Actor.run {σ I O : Type} (fuel : Nat) (c : Client σ I O) (s : σ)
    (a : Actor I O) : σ × Actor I O × List (Event I O) × RunExit :=
  match a.inputs, a.outputs with
  | some _, some _ =>
    if a.no ≥ a.ni then
      if a.ni = 0 then (s, a, [], .halt .panicked)
      else loopBody (decimBody c (a.no / a.ni)) fuel (s, a)
    else
      if a.no = 0 then (s, a, [], .halt .panicked)
      else loopBody (upsampleBody c (a.ni / a.no)) fuel (s, a)
  | none, some _ => loopBody (initBody c) fuel (s, a)
  | some _, none => loopBody (collectConsume c) fuel (s, a)
  | none, none => (s, a, [], .ok)

/-- The `Sampler` client of `src/src/clients/mod.rs`: `consume` overwrites
the held vector with the received payloads, `produce` drains it
(`Some(self.0.drain(..).collect())` — after the first call of a step it
returns `Some` of the empty vector, never `None`), `update` is the default
identity. -/
def samplerClient (T : Type) : Client (List T) T T :=
  { consume := fun _ data => data
    update := id
    produce := fun st => ([], some st) }

/-- The `Logging` client of `src/src/clients/mod.rs` at payload type
`Vec T`: `consume` pushes the concatenation of the received vectors
(`data.into_iter().flatten().cloned().collect()`), `update` is the default
identity and `produce` is the trait default `None`. -/
def loggingClient (T : Type) : Client (List (List T)) (List T) Unit :=
  { consume := fun log data => log ++ [data.flatten]
    update := id
    produce := fun st => (st, none) }

/-- Modelled from the spec: the summing client of scenario Sc2 ("actor that
sums two inputs per step", generally "sums its input and emits it once
every k steps") — it exists only in the spec's test scenarios, not under
`src/`.  Payloads are vectors of numbers; `consume` adds every received
entry to the accumulator, `produce` emits the accumulator as a singleton
vector and resets it. -/
def sumClient : Client Int (List Int) (List Int) :=
  { consume := fun acc data => acc + data.flatten.sum
    update := id
    produce := fun acc => (0, some [[acc]]) }

/-- Non-overlapping block sums: entry `i` of the result is the sum of the
`k` input entries starting at position `i * k` (the spec's "k-sliding sum"
of a decimated stream). -/
def blockSums (k n : Nat) (xs : List Int) : List Int :=
  (List.range n).map fun i => ((xs.drop (i * k)).take k).sum

namespace io

/-- Error variants of the `ActorError` enum of `src/src/lib.rs` that
`io.rs`'s `Output::send` can produce: `DropSend` (via
`From<flume::SendError<()>>`) and `Disconnected(String)`. -/
inductive IoError where
  | dropSend
  | disconnected (who : String)
  deriving Repr, DecidableEq

/-- A flume channel as seen from `io.rs`: payloads are `Arc<Data<T, U>>`
references, modelled as a pair of an allocation identifier and the value.
Receivers that share an allocation identifier share the same reference. -/
structure Chan (T : Type) where
  sent : List (Nat × T)
  senderOpen : Bool
  receiverOpen : Bool
  deriving Repr, DecidableEq

/-- The output port of `src/src/io.rs` (lines 184-201): the cached `Arc`
reference, the fan-out list of senders, the bootstrap flag, and the name
`type_name::<U>()` that `Who::who` reports. -/
structure Output (T : Type) where
  data : Option (Nat × T)
  tx : List (Chan T)
  bootstrap : Bool
  who : String
  deriving Repr, DecidableEq

/-- Applying `drop` to a shared reference: `Output::send` runs
`for tx in &self.tx { drop(tx); }`, so `drop` receives `&Sender<..>` values;
the references are consumed and the senders themselves stay alive. -/
def dropSharedRef {T : Type} (c : Chan T) : Chan T := c

/-- Result of one `Output::send` of `src/src/io.rs`: the client state after
the single `write` call, the `Arc` allocation counter, the updated output
and the returned `Result`. -/
structure SendResult (σ T : Type) where
  clientState : σ
  arcCtr : Nat
  output : Output T
  result : Except IoError Unit

/-- Rust `Output::send` of `src/src/io.rs` (lines 227-249): call the client's
`write` once and store the result in `self.data`; if it is a payload, send
a clone of the same `Arc` to every sender (`join_all` drives every send,
then the first failure is collected into `DropSend`); if it is `None`,
iterate `drop` over `&self.tx` and return `Disconnected(who)`.  `ctr` is
the allocation counter: exactly one fresh `Arc` identifier is consumed per
payload-producing `write`, never one per receiver. -/
def Output.send {σ T : Type} (write : σ → σ × Option T) (s : σ) (ctr : Nat)
    (o : Output T) : SendResult σ T :=
  match write s with
  | (s', some v) =>
    { clientState := s'
      arcCtr := ctr + 1
      output := { o with
        data := some (ctr, v)
        tx := o.tx.map fun c =>
          if c.receiverOpen then { c with sent := c.sent ++ [(ctr, v)] } else c }
      result := if o.tx.all (·.receiverOpen) then .ok () else .error .dropSend }
  | (s', none) =>
    { clientState := s'
      arcCtr := ctr
      output := { o with data := none, tx := o.tx.map dropSharedRef }
      result := .error (.disconnected o.who) }

end io

/-- Pop the head of an input's queue into its `data` field (the effect of a
successful `recv`). -/
def popIn {I : Type} (inp : Input I) : Input I :=
  match inp.queue with
  | x :: rest => { inp with data := x, queue := rest }
  | [] => inp

/-- The receive events produced by a successful receive pass, numbering
inputs from `idx`. -/
def recvEvts {I O : Type} (idx : Nat) : List (Input I) → List (Event I O)
  | [] => []
  | inp :: rest => .recv idx (popIn inp).data :: recvEvts (idx + 1) rest

theorem recvAll_ok {I O : Type} (idx : Nat) (ins : List (Input I))
    (h : ∀ inp ∈ ins, inp.queue ≠ []) :
    recvAll (O := O) idx ins = (ins.map popIn, recvEvts idx ins, .allOk) := by
  induction ins generalizing idx with
  | nil => rfl
  | cons inp rest ih =>
    cases hq : inp.queue with
    | nil => exact absurd hq (h inp (by simp))
    | cons x r =>
      have hrest : ∀ i ∈ rest, i.queue ≠ [] := fun i hi => h i (by simp [hi])
      simp [recvAll, Input.recv, hq, ih (idx + 1) hrest, recvEvts, popIn]

theorem recvEvts_tags {I O : Type} (idx : Nat) (ins : List (Input I)) :
    (recvEvts (O := O) idx ins).map Event.tag =
      (List.range' idx ins.length).map Tag.recvT := by
  induction ins generalizing idx with
  | nil => rfl
  | cons inp rest ih =>
    simp [recvEvts, Event.tag, List.range'_succ, ih (idx + 1)]

theorem collect_ok {I O : Type} (a : Actor I O) (ins : List (Input I))
    (hins : a.inputs = some ins) (h : ∀ inp ∈ ins, inp.queue ≠ []) :
    a.collect = ({ a with inputs := some (ins.map popIn) },
      recvEvts 0 ins, .ok (get_data (ins.map popIn))) := by
  simp [Actor.collect, hins, recvAll_ok 0 ins h]

theorem collectConsume_ok {σ I O : Type} (c : Client σ I O) (s : σ)
    (a : Actor I O) (ins : List (Input I)) (hins : a.inputs = some ins)
    (h : ∀ inp ∈ ins, inp.queue ≠ []) :
    collectConsume c (s, a) =
      (c.update (c.consume s (get_data (ins.map popIn))),
        { a with inputs := some (ins.map popIn) },
        recvEvts 0 ins ++ [.consume (get_data (ins.map popIn)), .update],
        none) := by
  simp [collectConsume, collect_ok a ins hins h]

theorem sendAll_outs {I O : Type} (idx : Nat) (outs : List (Output O)) :
    (sendAll (I := I) idx outs).1 = outs.map (fun o => o.send.1) := by
  induction outs generalizing idx with
  | nil => rfl
  | cons o os ih => simp [sendAll, ih (idx + 1)]

theorem sendAll_trace {I O : Type} (idx : Nat) (outs : List (Output O)) :
    (sendAll (I := I) idx outs).2.1 =
      (List.enumFrom idx outs).map fun p => Event.send p.1 p.2.data := by
  induction outs generalizing idx with
  | nil => rfl
  | cons o os ih => simp [sendAll, ih (idx + 1), List.enumFrom]

theorem sendAll_tags {I O : Type} (idx : Nat) (outs : List (Output O)) :
    ((sendAll (I := I) idx outs).2.1).map Event.tag =
      (List.range' idx outs.length).map Tag.sendT := by
  induction outs generalizing idx with
  | nil => rfl
  | cons o os ih => simp [sendAll, Event.tag, List.range'_succ, ih (idx + 1)]

theorem sendAll_allOk {I O : Type} (idx : Nat) (outs : List (Output O)) :
    (sendAll (I := I) idx outs).2.2 =
      outs.all (fun o => o.tx.all (·.receiverOpen)) := by
  induction outs generalizing idx with
  | nil => rfl
  | cons o os ih => simp [sendAll, Output.send, ih (idx + 1)]

theorem setDataList_eq {O : Type} (outs : List (Output O)) (ds : List O) :
    setDataList outs ds =
      ((outs.zip ds).map fun p => { p.1 with data := p.2 }) ++
        outs.drop ds.length := by
  induction outs generalizing ds with
  | nil => cases ds <;> rfl
  | cons o os ih =>
    cases ds with
    | nil => rfl
    | cons d rest => simp [setDataList, List.zip_cons_cons, ih rest]

theorem setDataList_length {O : Type} (outs : List (Output O)) (ds : List O) :
    (setDataList outs ds).length = outs.length := by
  induction outs generalizing ds with
  | nil => cases ds <;> rfl
  | cons o os ih => cases ds with
    | nil => rfl
    | cons d rest => simp [setDataList, ih rest]

theorem setDataList_drop {O : Type} (outs : List (Output O)) (ds : List O) :
    (setDataList outs ds).drop ds.length = outs.drop ds.length := by
  rw [setDataList_eq, List.drop_append_eq_append_drop]
  have hlen : ((outs.zip ds).map fun p =>
      ({ p.1 with data := p.2 } : Output O)).length = min outs.length ds.length := by
    simp [List.length_zip]
  rw [List.drop_eq_nil_of_le (by omega)]
  rcases Nat.le_total ds.length outs.length with hle | hle
  · have h0 : ds.length - ((outs.zip ds).map fun p =>
        ({ p.1 with data := p.2 } : Output O)).length = 0 := by omega
    rw [h0]
    simp
  · have h2 : outs.drop ds.length = [] := List.drop_eq_nil_of_le (by omega)
    simp [h2]

theorem distribute_none {I O : Type} (a : Actor I O) :
    a.distribute none = (a.disconnect, [], .error (.err .disconnected)) := rfl

theorem distribute_some {I O : Type} (a : Actor I O) (outs : List (Output O))
    (ds : List O) (houts : a.outputs = some outs) :
    a.distribute (some ds) =
      ({ a with outputs := some (sendAll (I := I) 0 (setDataList outs ds)).1 },
        (sendAll (I := I) 0 (setDataList outs ds)).2.1,
        if (sendAll (I := I) 0 (setDataList outs ds)).2.2 then .ok ()
          else .error (.err .dropSend)) := by
  rcases h : sendAll (I := I) 0 (setDataList outs ds) with ⟨o', e', b⟩
  simp [Actor.distribute, Actor.set_data, houts, h]

/-- Every receiver of every channel of every output in the list is still
open. -/
def outsOpen {O : Type} (outs : List (Output O)) : Prop :=
  ∀ o ∈ outs, ∀ c ∈ o.tx, c.receiverOpen = true

theorem send_open {O : Type} (o : Output O)
    (h : ∀ c ∈ o.tx, c.receiverOpen = true) :
    o.send = ({ o with tx := o.tx.map fun c =>
      { c with sent := c.sent ++ [o.data] } }, true) := by
  unfold Output.send
  have h1 : (o.tx.map fun c =>
      if c.receiverOpen then { c with sent := c.sent ++ [o.data] } else c)
      = o.tx.map fun c => { c with sent := c.sent ++ [o.data] } :=
    List.map_congr_left fun c hc => by simp [h c hc]
  have h2 : o.tx.all (·.receiverOpen) = true := by
    rw [List.all_eq_true]
    exact fun c hc => by simp [h c hc]
  rw [h1, h2]

theorem send_tx_open {O : Type} (o : Output O)
    (h : ∀ c ∈ o.tx, c.receiverOpen = true) :
    ∀ c ∈ (o.send.1).tx, c.receiverOpen = true := by
  intro c hc
  rw [Output.send] at hc
  simp only [List.mem_map] at hc
  obtain ⟨c0, hc0, rfl⟩ := hc
  simp [h c0 hc0]

theorem setDataList_open {O : Type} (outs : List (Output O)) (ds : List O)
    (h : outsOpen outs) : outsOpen (setDataList outs ds) := by
  rw [setDataList_eq]
  intro o' ho' c hc
  rcases List.mem_append.mp ho' with h1 | h2
  · obtain ⟨p, hp, rfl⟩ := List.mem_map.mp h1
    exact h p.1 (List.of_mem_zip hp).1 c hc
  · exact h o' (List.mem_of_mem_drop h2) c hc

theorem sendAll_open {I O : Type} (idx : Nat) (outs : List (Output O))
    (h : outsOpen outs) : outsOpen ((sendAll (I := I) idx outs).1) := by
  rw [sendAll_outs]
  intro o' ho' c hc
  obtain ⟨o, ho, rfl⟩ := List.mem_map.mp ho'
  exact send_tx_open o (h o ho) c hc

theorem sendAll_length {I O : Type} (idx : Nat) (outs : List (Output O)) :
    ((sendAll (I := I) idx outs).1).length = outs.length := by
  rw [sendAll_outs, List.length_map]

theorem sendAll_ok_of_open {I O : Type} (idx : Nat) (outs : List (Output O))
    (h : outsOpen outs) : (sendAll (I := I) idx outs).2.2 = true := by
  rw [sendAll_allOk, List.all_eq_true]
  intro o ho
  rw [List.all_eq_true]
  exact fun c hc => by simp [h o ho c hc]

theorem produceDistribute_trace {σ I O : Type} (c : Client σ I O) (s s' : σ)
    (a : Actor I O) (outs : List (Output O)) (ds : List O)
    (houts : a.outputs = some outs) (hp : c.produce s = (s', some ds)) :
    ∃ r, produceDistribute c (s, a) =
      (s', { a with outputs := some (sendAll (I := I) 0 (setDataList outs ds)).1 },
        .produce (some ds) :: (sendAll (I := I) 0 (setDataList outs ds)).2.1, r) := by
  by_cases hb : (sendAll (I := I) 0 (setDataList outs ds)).2.2 = true
  · exact ⟨none, by simp [produceDistribute, hp, distribute_some a outs ds houts, hb]⟩
  · exact ⟨some (.err .dropSend), by
      simp [produceDistribute, hp, distribute_some a outs ds houts,
        Bool.eq_false_iff.mpr hb]⟩

theorem produceDistribute_ok {σ I O : Type} (c : Client σ I O) (s s' : σ)
    (a : Actor I O) (outs : List (Output O)) (ds : List O)
    (houts : a.outputs = some outs) (hp : c.produce s = (s', some ds))
    (hopen : outsOpen outs) :
    produceDistribute c (s, a) =
      (s', { a with outputs := some (sendAll (I := I) 0 (setDataList outs ds)).1 },
        .produce (some ds) :: (sendAll (I := I) 0 (setDataList outs ds)).2.1,
        none) := by
  simp [produceDistribute, hp, distribute_some a outs ds houts,
    sendAll_ok_of_open 0 _ (setDataList_open outs ds hopen)]

theorem actor_eta_inputs {I O : Type} (a : Actor I O) (ins : List (Input I))
    (h : a.inputs = some ins) : ({ a with inputs := some ins } : Actor I O) = a := by
  cases a
  simp_all

theorem actor_eta_outputs {I O : Type} (a : Actor I O) (outs : List (Output O))
    (h : a.outputs = some outs) :
    ({ a with outputs := some outs } : Actor I O) = a := by
  cases a
  simp_all

theorem popIn_queue {I : Type} (inp : Input I) (h : inp.queue ≠ []) :
    (popIn inp).queue.length + 1 = inp.queue.length := by
  cases hq : inp.queue with
  | nil => exact absurd hq h
  | cons x r => simp [popIn, hq]

theorem repeatPD_ok {σ I O : Type} (c : Client σ I O)
    (hprod : ∀ st : σ, ((c.produce st).2).isSome) (n : Nat) :
    ∀ (s : σ) (a : Actor I O) (outs : List (Output O)),
      a.outputs = some outs → outsOpen outs →
      ∃ s' outs' evs,
        repeatStep (produceDistribute c) n (s, a) =
          (s', { a with outputs := some outs' }, evs, none) ∧
        outs'.length = outs.length ∧ outsOpen outs' ∧
        evs.map Event.tag = (List.replicate n
          (Tag.produceT :: (List.range' 0 outs.length).map Tag.sendT)).flatten := by
  induction n with
  | zero =>
    intro s a outs houts hopen
    exact ⟨s, outs, [],
      by simp [repeatStep, actor_eta_outputs a outs houts], rfl, hopen, rfl⟩
  | succ n ih =>
    intro s a outs houts hopen
    rcases hps : c.produce s with ⟨s1, res⟩
    have hsome := hprod s
    rw [hps] at hsome
    obtain ⟨ds, rfl⟩ := Option.isSome_iff_exists.mp hsome
    have hpd := produceDistribute_ok c s s1 a outs ds houts hps hopen
    have hopen1 : outsOpen ((sendAll (I := I) 0 (setDataList outs ds)).1) :=
      sendAll_open 0 _ (setDataList_open outs ds hopen)
    have hlen1 : ((sendAll (I := I) 0 (setDataList outs ds)).1).length
        = outs.length := by rw [sendAll_length, setDataList_length]
    obtain ⟨s2, outs2, evs2, heq2, hlen2, hopen2, htag2⟩ :=
      ih s1 { a with outputs := some (sendAll (I := I) 0 (setDataList outs ds)).1 }
        (sendAll (I := I) 0 (setDataList outs ds)).1 rfl hopen1
    refine ⟨s2, outs2,
      (.produce (some ds) :: (sendAll (I := I) 0 (setDataList outs ds)).2.1) ++ evs2,
      ?_, by rw [hlen2, hlen1], hopen2, ?_⟩
    · simp [repeatStep, hpd, heq2]
    · simp [Event.tag, sendAll_tags, setDataList_length, htag2,
        List.replicate_succ, hlen1]

theorem repeatCC_ok {σ I O : Type} (c : Client σ I O) (n : Nat) :
    ∀ (s : σ) (a : Actor I O) (ins : List (Input I)),
      a.inputs = some ins → (∀ inp ∈ ins, n ≤ inp.queue.length) →
      ∃ s' ins' evs,
        repeatStep (collectConsume c) n (s, a) =
          (s', { a with inputs := some ins' }, evs, none) ∧
        ins'.length = ins.length ∧
        evs.map Event.tag = (List.replicate n
          ((List.range' 0 ins.length).map Tag.recvT ++
            [Tag.consumeT, Tag.updateT])).flatten := by
  induction n with
  | zero =>
    intro s a ins hins hq
    exact ⟨s, ins, [],
      by simp [repeatStep, actor_eta_inputs a ins hins], rfl, rfl⟩
  | succ n ih =>
    intro s a ins hins hq
    have hne : ∀ inp ∈ ins, inp.queue ≠ [] := by
      intro inp hi hnil
      have := hq inp hi
      rw [hnil] at this
      simp at this
    have hcc := collectConsume_ok c s a ins hins hne
    have hq1 : ∀ inp ∈ ins.map popIn, n ≤ inp.queue.length := by
      intro inp hi
      obtain ⟨i0, hi0, rfl⟩ := List.mem_map.mp hi
      have h1 := popIn_queue i0 (hne i0 hi0)
      have h2 := hq i0 hi0
      omega
    obtain ⟨s2, ins2, evs2, heq2, hlen2, htag2⟩ :=
      ih (c.update (c.consume s (get_data (ins.map popIn))))
        { a with inputs := some (ins.map popIn) } (ins.map popIn) rfl hq1
    refine ⟨s2, ins2,
      (recvEvts 0 ins ++ [.consume (get_data (ins.map popIn)), .update]) ++ evs2,
      ?_, by rw [hlen2, List.length_map], ?_⟩
    · simp [repeatStep, hcc, heq2]
    · simp [Event.tag, recvEvts_tags, htag2, List.replicate_succ,
        List.length_map]

theorem run_decim_eq {σ I O : Type} (fuel : Nat) (c : Client σ I O) (s : σ)
    (a : Actor I O) (ins : List (Input I)) (outs : List (Output O))
    (h1 : a.inputs = some ins) (h2 : a.outputs = some outs)
    (h3 : a.ni ≤ a.no) (h4 : a.ni ≠ 0) :
    a.run fuel c s = loopBody (decimBody c (a.no / a.ni)) fuel (s, a) := by
  simp [Actor.run, h1, h2, ge_iff_le, h3, h4]

theorem run_upsample_eq {σ I O : Type} (fuel : Nat) (c : Client σ I O) (s : σ)
    (a : Actor I O) (ins : List (Input I)) (outs : List (Output O))
    (h1 : a.inputs = some ins) (h2 : a.outputs = some outs)
    (h3 : a.no < a.ni) (h4 : a.no ≠ 0) :
    a.run fuel c s = loopBody (upsampleBody c (a.ni / a.no)) fuel (s, a) := by
  have h3' : ¬ a.ni ≤ a.no := Nat.not_le.mpr h3
  simp [Actor.run, h1, h2, ge_iff_le, h3', h4]

theorem decimBody_structure {σ I O : Type} (c : Client σ I O) (reps : Nat)
    (s : σ) (a : Actor I O) (ins : List (Input I)) (outs : List (Output O))
    (hins : a.inputs = some ins) (houts : a.outputs = some outs)
    (hq : ∀ inp ∈ ins, reps ≤ inp.queue.length)
    (hprod : ∀ st : σ, ((c.produce st).2).isSome) :
    ∃ s' a' evs r,
      decimBody c reps (s, a) = (s', a', evs, r) ∧
      evs.map Event.tag =
        (List.replicate reps ((List.range' 0 ins.length).map Tag.recvT ++
          [Tag.consumeT, Tag.updateT])).flatten ++
        Tag.produceT :: (List.range' 0 outs.length).map Tag.sendT := by
  obtain ⟨s1, ins1, evs1, heq1, hlen1, htag1⟩ := repeatCC_ok c reps s a ins hins hq
  rcases hps : c.produce s1 with ⟨s2, res⟩
  have hsome := hprod s1
  rw [hps] at hsome
  obtain ⟨ds, rfl⟩ := Option.isSome_iff_exists.mp hsome
  have houts1 : ({ a with inputs := some ins1 } : Actor I O).outputs = some outs :=
    houts
  obtain ⟨r, hpd⟩ := produceDistribute_trace c s1 s2 _ outs ds houts1 hps
  refine
    ⟨s2,
      { inputs := some ins1,
        outputs := some (sendAll (I := I) 0 (setDataList outs ds)).1,
        ni := a.ni, no := a.no },
      evs1 ++ (.produce (some ds) ::
        (sendAll (I := I) 0 (setDataList outs ds)).2.1), r, ?_, ?_⟩
  · simp [decimBody, heq1, hpd]
  · simp [Event.tag, htag1, sendAll_tags, setDataList_length]

theorem upsampleBody_structure {σ I O : Type} (c : Client σ I O) (reps : Nat)
    (s : σ) (a : Actor I O) (ins : List (Input I)) (outs : List (Output O))
    (hins : a.inputs = some ins) (houts : a.outputs = some outs)
    (hnq : ∀ inp ∈ ins, inp.queue ≠ []) (hopen : outsOpen outs)
    (hprod : ∀ st : σ, ((c.produce st).2).isSome) :
    ∃ s' a' evs,
      upsampleBody c reps (s, a) = (s', a', evs, none) ∧
      evs.map Event.tag =
        (List.range' 0 ins.length).map Tag.recvT ++
          [Tag.consumeT, Tag.updateT] ++
          (List.replicate reps (Tag.produceT ::
            (List.range' 0 outs.length).map Tag.sendT)).flatten := by
  have hcc := collectConsume_ok c s a ins hins hnq
  have houts1 : ({ a with inputs := some (ins.map popIn) } : Actor I O).outputs
      = some outs := houts
  obtain ⟨s2, outs2, evs2, heq2, hlen2, hopen2, htag2⟩ :=
    repeatPD_ok c hprod reps (c.update (c.consume s (get_data (ins.map popIn))))
      { a with inputs := some (ins.map popIn) } outs houts1 hopen
  refine
    ⟨s2,
      { inputs := some (ins.map popIn), outputs := some outs2,
        ni := a.ni, no := a.no },
      (recvEvts 0 ins ++ [.consume (get_data (ins.map popIn)), .update]) ++ evs2,
      ?_, ?_⟩
  · simp [upsampleBody, hcc, heq2]
  · simp [Event.tag, recvEvts_tags, htag2]

/-- A one-input, one-output actor wired for the `Sampler` client with
rates `NI = k`, `NO = 1`: input payload cache `d`, pending input queue `q`,
upstream-sender liveness `sOpen`, cached output payload `y` and output
channel contents `sent` (receiver open). -/
def samplerActorSt {T : Type} (d : T) (q : List T) (sOpen : Bool) (y : T)
    (sent : List T) (k : Nat) : Actor T T :=
  { inputs := some [{ data := d, queue := q, senderOpen := sOpen }]
    outputs := some [{ data := y, tx := [{ sent := sent, senderOpen := true, receiverOpen := true }] }]
    ni := k
    no := 1 }

theorem samplerRound {T : Type} (j : Nat) :
    ∀ (d : T) (q : List T) (sOpen : Bool) (y : T) (sent : List T) (k : Nat),
      ∃ evs, repeatStep (produceDistribute (samplerClient T)) j
          (([] : List T), samplerActorSt d q sOpen y sent k) =
        ([], samplerActorSt d q sOpen y (sent ++ List.replicate j y) k,
          evs, none) := by
  induction j with
  | zero =>
    intro d q sOpen y sent k
    exact ⟨[], by simp [repeatStep]⟩
  | succ j ih =>
    intro d q sOpen y sent k
    obtain ⟨evs2, heq2⟩ := ih d q sOpen y (sent ++ [y]) k
    have hstep : produceDistribute (samplerClient T)
        (([] : List T), samplerActorSt d q sOpen y sent k) =
      ([], samplerActorSt d q sOpen y (sent ++ [y]) k,
        [.produce (some []), .send 0 y], none) := by
      simp [produceDistribute, samplerClient, Actor.distribute, Actor.set_data,
        samplerActorSt, setDataList, sendAll, Output.send]
    exact ⟨[.produce (some []), .send 0 y] ++ evs2,
      by simp [repeatStep, hstep, heq2, List.replicate_succ]⟩

theorem samplerBody {T : Type} (k : Nat) (hk : 1 ≤ k) (d x : T) (q : List T)
    (sOpen : Bool) (y : T) (sent : List T) :
    ∃ evs, upsampleBody (samplerClient T) k
        (([] : List T), samplerActorSt d (x :: q) sOpen y sent k) =
      ([], samplerActorSt x q sOpen x (sent ++ List.replicate k x) k,
        evs, none) := by
  obtain ⟨j, rfl⟩ : ∃ j, k = j + 1 := ⟨k - 1, by omega⟩
  obtain ⟨evs2, heq2⟩ := samplerRound j x q sOpen x (sent ++ [x]) (j + 1)
  have hcc : collectConsume (samplerClient T)
      (([] : List T), samplerActorSt d (x :: q) sOpen y sent (j + 1)) =
    ([x], samplerActorSt x q sOpen y sent (j + 1),
      [.recv 0 x, .consume [x], .update], none) := by
    simp [collectConsume, Actor.collect, samplerActorSt, recvAll, Input.recv,
      get_data, popIn, samplerClient]
  have hstep1 : produceDistribute (samplerClient T)
      ([x], samplerActorSt x q sOpen y sent (j + 1)) =
    ([], samplerActorSt x q sOpen x (sent ++ [x]) (j + 1),
      [.produce (some [x]), .send 0 x], none) := by
    simp [produceDistribute, samplerClient, Actor.distribute, Actor.set_data,
      samplerActorSt, setDataList, sendAll, Output.send]
  exact ⟨[.recv 0 x, .consume [x], .update] ++
      ([.produce (some [x]), .send 0 x] ++ evs2),
    by simp [upsampleBody, repeatStep, hcc, hstep1, heq2, List.replicate_succ]⟩

/-- A one-input, one-output actor wired for the Sc2 summing client with
rates `NI = 1`, `NO = k`; the upstream sender is already closed, so the run
terminates with `DropRecv` once the pre-loaded queue `q` is exhausted. -/
def sumActorSt (d : List Int) (q : List (List Int)) (y : List Int)
    (sent : List (List Int)) (k : Nat) : Actor (List Int) (List Int) :=
  { inputs := some [{ data := d, queue := q, senderOpen := false }]
    outputs := some [{ data := y, tx := [{ sent := sent, senderOpen := true, receiverOpen := true }] }]
    ni := 1
    no := k }

/-- The payload sequence the summing actor emits: one singleton vector per
iteration, holding the running sum of the `k` payload vectors consumed in
that iteration (the first iteration starts from `acc`, later ones from
`0`). -/
def sumEmits (k : Nat) : Nat → Int → List (List Int) → List (List Int)
  | 0, _, _ => []
  | n + 1, acc, q => [acc + (q.take k).flatten.sum] :: sumEmits k n 0 (q.drop k)

theorem sumRepeatCC (k : Nat) :
    ∀ (acc : Int) (d : List Int) (q : List (List Int)) (y : List Int)
      (sent : List (List Int)) (kk : Nat), k ≤ q.length →
      ∃ d' evs, repeatStep (collectConsume sumClient) k
          (acc, sumActorSt d q y sent kk) =
        (acc + (q.take k).flatten.sum, sumActorSt d' (q.drop k) y sent kk,
          evs, none) := by
  induction k with
  | zero =>
    intro acc d q y sent kk h
    exact ⟨d, [], by simp [repeatStep]⟩
  | succ k ih =>
    intro acc d q y sent kk h
    cases q with
    | nil => simp at h
    | cons v q' =>
      have hcc : collectConsume sumClient (acc, sumActorSt d (v :: q') y sent kk) =
          (acc + v.sum, sumActorSt v q' y sent kk,
            [.recv 0 v, .consume [v], .update], none) := by
        simp [collectConsume, Actor.collect, sumActorSt, recvAll, Input.recv,
          get_data, popIn, sumClient]
      obtain ⟨d2, evs2, heq2⟩ := ih (acc + v.sum) v q' y sent kk (by simpa using h)
      refine ⟨d2, [.recv 0 v, .consume [v], .update] ++ evs2, ?_⟩
      simp [repeatStep, hcc, heq2, add_assoc]

theorem loopBody_succ_none {σ I O : Type}
    (body : σ × Actor I O → σ × Actor I O × List (Event I O) × Option Halt)
    (n : Nat) (s s' : σ) (a a' : Actor I O) (evs : List (Event I O))
    (h : body (s, a) = (s', a', evs, none)) :
    loopBody body (n + 1) (s, a) =
      ((loopBody body n (s', a')).1, (loopBody body n (s', a')).2.1,
        evs ++ (loopBody body n (s', a')).2.2.1,
        (loopBody body n (s', a')).2.2.2) := by
  simp only [loopBody, h]

theorem loopBody_succ_halt {σ I O : Type}
    (body : σ × Actor I O → σ × Actor I O × List (Event I O) × Option Halt)
    (n : Nat) (s s' : σ) (a a' : Actor I O) (evs : List (Event I O)) (hh : Halt)
    (h : body (s, a) = (s', a', evs, some hh)) :
    loopBody body (n + 1) (s, a) = (s', a', evs, .halt hh) := by
  simp only [loopBody, h]

theorem sumLoop (n : Nat) :
    ∀ (k : Nat) (acc : Int) (d y : List Int) (q : List (List Int))
      (sent : List (List Int)), 1 ≤ k → q.length = n * k →
      ∃ accF d' y' evs,
        loopBody (decimBody sumClient k) (n + 1)
            (acc, sumActorSt d q y sent k) =
          (accF, sumActorSt d' [] y' (sent ++ sumEmits k n acc q) k,
            evs, .halt (.err .dropRecv)) := by
  induction n with
  | zero =>
    intro k acc d y q sent hk hlen
    have hq : q = [] := List.eq_nil_of_length_eq_zero (by simpa using hlen)
    subst hq
    obtain ⟨j, rfl⟩ : ∃ j, k = j + 1 := ⟨k - 1, by omega⟩
    exact ⟨acc, d, y, [], by
      simp [loopBody, decimBody, repeatStep, collectConsume, Actor.collect,
        sumActorSt, recvAll, Input.recv, Actor.disconnect, dropMutRef,
        sumEmits]⟩
  | succ n ih =>
    intro k acc d y q sent hk hlen
    have hlen' : q.length = n * k + k := by rw [hlen, Nat.succ_mul]
    have hkq : k ≤ q.length := by rw [hlen']; exact Nat.le_add_left k (n * k)
    obtain ⟨d1, evs1, heq1⟩ := sumRepeatCC k acc d q y sent k hkq
    have hpd : produceDistribute sumClient
        (acc + (q.take k).flatten.sum, sumActorSt d1 (q.drop k) y sent k) =
      (0, sumActorSt d1 (q.drop k) [acc + (q.take k).flatten.sum]
          (sent ++ [[acc + (q.take k).flatten.sum]]) k,
        [.produce (some [[acc + (q.take k).flatten.sum]]),
          .send 0 [acc + (q.take k).flatten.sum]], none) := by
      simp [produceDistribute, sumClient, Actor.distribute, Actor.set_data,
        sumActorSt, setDataList, sendAll, Output.send]
    obtain ⟨accF, d2, y2, evs2, heq2⟩ := ih k 0 d1
      [acc + (q.take k).flatten.sum] (q.drop k)
      (sent ++ [[acc + (q.take k).flatten.sum]]) hk
      (by rw [List.length_drop, hlen']; omega)
    have hbody : decimBody sumClient k (acc, sumActorSt d q y sent k) =
        (0, sumActorSt d1 (q.drop k) [acc + (q.take k).flatten.sum]
            (sent ++ [[acc + (q.take k).flatten.sum]]) k,
          evs1 ++ [.produce (some [[acc + (q.take k).flatten.sum]]),
            .send 0 [acc + (q.take k).flatten.sum]], none) := by
      simp only [decimBody, heq1, hpd]
    refine ⟨accF, d2, y2,
      (evs1 ++ [.produce (some [[acc + (q.take k).flatten.sum]]),
        .send 0 [acc + (q.take k).flatten.sum]]) ++ evs2, ?_⟩
    rw [loopBody_succ_none _ _ _ _ _ _ _ hbody, heq2]
    simp only [sumEmits]
    simp [List.append_assoc]

theorem flatten_singleton_map (l : List Int) :
    (l.map fun x => [x]).flatten = l := by
  induction l with
  | nil => rfl
  | cons x xs ih => simp [ih]

theorem blockSums_succ (k n : Nat) (xs : List Int) :
    blockSums k (n + 1) xs =
      (xs.take k).sum :: blockSums k n (xs.drop k) := by
  simp only [blockSums, List.range_succ_eq_map, List.map_cons, Nat.zero_mul,
    List.drop_zero, List.map_map]
  congr 1
  apply List.map_congr_left
  intro i hi
  simp only [Function.comp_apply, List.drop_drop]
  rw [Nat.succ_mul, Nat.add_comm (i * k) k]

theorem sumEmits_blockSums (k : Nat) (n : Nat) :
    ∀ xs : List Int, sumEmits k n 0 (xs.map fun x => [x]) =
      (blockSums k n xs).map fun b => [b] := by
  induction n with
  | zero => intro xs; simp [sumEmits, blockSums]
  | succ n ih =>
    intro xs
    rw [blockSums_succ]
    simp only [sumEmits, List.map_cons]
    rw [← List.map_take, flatten_singleton_map, ← List.map_drop, ih (xs.drop k)]
    simp

/-- The Sc2 pipeline: run the summing actor (`NI = 1`, `NO = 2`) over the
initiator sequence `[10, 20, 30, 40]` (one singleton payload vector per
step, upstream closed after the last), then feed the payload sequence of
its output channel to a `Logging` terminator whose upstream sender is
closed once the producer has exited and been dropped.  The result is the
final contents of the `Logging` client. -/
def pipelineLog : List (List Int) :=
  let produced := Actor.run 3 sumClient 0
    (sumActorSt [] ([10, 20, 30, 40].map fun x => [x]) [] [] 2)
  let sentSeq := match produced.2.1.outputs with
    | some (o :: _) =>
      match o.tx with
      | ch :: _ => ch.sent
      | [] => []
    | _ => []
  (Actor.run 3 (loggingClient Int) []
    { inputs := some [{ data := [], queue := sentSeq, senderOpen := false }]
      outputs := none
      ni := 1
      no := 0 }).1

/-- A client whose `produce`/`write` always reports end of stream. -/
def noneClient : Client Unit Int Int :=
  { consume := fun s _ => s
    update := id
    produce := fun s => (s, none) }

/-- A client that always produces the payload vector `[10, 20]`. -/
def constClient : Client Unit Int Int :=
  { consume := fun s _ => s
    update := id
    produce := fun s => (s, some [10, 20]) }

/-- An `io.rs` output with one connected, open channel and a cached
payload, whose client's `write` will return `None`. -/
def c1out : io.Output Int :=
  { data := some (99, 7)
    tx := [{ sent := [], senderOpen := true, receiverOpen := true }]
    bootstrap := false
    who := "U" }

/-- A `Write` implementation returning no payload (end of stream). -/
def c1write : Unit → Unit × Option Int := fun _ => ((), none)

/-- An initiator whose single output has one connected, open channel. -/
def c1actor : Actor Int Int :=
  { inputs := none
    outputs := some [{ data := 0, tx := [{ sent := [], senderOpen := true, receiverOpen := true }] }]
    ni := 0
    no := 1 }

/-- C1: when the client's `write`/`produce` returns no payload, `send`
transmits nothing, caches `None` and returns the graceful
`Disconnected(who)` error, and the actor's run loop ends on it — but the
senders are NOT dropped: `for tx in &self.tx { drop(tx) }` in
`io.rs::send` and `tx.iter_mut().for_each(drop)` in
`actor.rs::disconnect` drop the references, not the `Sender`s, so every
channel still has `senderOpen = true` afterwards (the senders only die
when the actor itself is dropped).  The claim's "drops all of that
output's channel senders" contradicts the code. -/
theorem c1_send_none_graceful_but_senders_not_dropped :
    (io.Output.send c1write () 5 c1out).result = .error (.disconnected "U") ∧
    (io.Output.send c1write () 5 c1out).output.tx =
      [{ sent := [], senderOpen := true, receiverOpen := true }] ∧
    (io.Output.send c1write () 5 c1out).output.data = none ∧
    (io.Output.send c1write () 5 c1out).arcCtr = 5 ∧
    Actor.run 1 noneClient () c1actor =
      ((), c1actor, [.update, .produce none], .halt (.err .disconnected)) :=
  ⟨rfl, rfl, rfl, rfl, rfl⟩

/-- A 1-input/1-output actor whose upstream sender is already dropped and
whose queue is empty: its next `recv` reports the closed channel. -/
def c2recvActor : Actor Int Int :=
  { inputs := some [{ data := 0, queue := [], senderOpen := false }]
    outputs := some [{ data := 7, tx := [{ sent := [], senderOpen := true, receiverOpen := true }] }]
    ni := 1
    no := 1 }

/-- A 2-output initiator whose first output's receiver is dropped: its
next `send` reports the closed channel. -/
def c2sendActor : Actor Int Int :=
  { inputs := none
    outputs := some [{ data := 0, tx := [{ sent := [], senderOpen := true, receiverOpen := false }] }, { data := 1, tx := [{ sent := [], senderOpen := true, receiverOpen := true }] }]
    ni := 0
    no := 1 }

/-- C2: on a closed-channel `recv` error the run loop does exit returning
`DropRecv` (after calling `disconnect`), and on a closed-channel `send`
error it exits returning `DropSend` — but in neither case are the output
senders dropped: `disconnect` iterates `tx.iter_mut().for_each(drop)`,
dropping `&mut Sender` references (a no-op), and the send-error path never
even calls `disconnect`.  Both final actors below still carry
`senderOpen = true` on every output channel, contradicting the claim's
"drops all of its output senders". -/
theorem c2_closed_channel_exit_but_senders_not_dropped :
    Actor.run 1 constClient () c2recvActor =
      ((), c2recvActor, [], .halt (.err .dropRecv)) ∧
    Actor.run 1 constClient () c2sendActor =
      ((),
        { inputs := none
          outputs := some [{ data := 10, tx := [{ sent := [], senderOpen := true, receiverOpen := false }] }, { data := 20, tx := [{ sent := [20], senderOpen := true, receiverOpen := true }] }]
          ni := 0
          no := 1 },
        [.update, .produce (some [10, 20]), .send 0 10, .send 1 20],
        .halt (.err .dropSend)) :=
  ⟨rfl, rfl⟩

/-- The spec §3 invariant: `NI = 0` iff the input list is empty and
`NO = 0` iff the output list is empty (an absent list counts as empty). -/
def rateInvariant {I O : Type} (a : Actor I O) : Prop :=
  (a.ni = 0 ↔ a.inputs.getD [] = []) ∧ (a.no = 0 ↔ a.outputs.getD [] = [])

/-- C6 counterexample: `Actor::new` builds an actor with empty port lists
for ANY rates, so an actor with `NI = 1` and no inputs exists and the
claimed invariant fails on it. -/
theorem c6_counterexample : ¬ rateInvariant (Actor.new Unit Unit 1 1) := by
  intro h
  exact absurd (h.1.mpr rfl) (by decide)

/-- C6 amended: `Actor::new` yields actors with both port lists absent
whatever `NI` and `NO` are, so the rate/port equivalence is not an
invariant of every actor; what `run` guarantees is: an actor with both
port lists absent returns `Ok(())` immediately, with no events and no
client call, regardless of its rates. -/
theorem c6_no_ports_noop_run :
    (∀ (I O : Type) (ni no : Nat),
      (Actor.new I O ni no).inputs = none ∧
        (Actor.new I O ni no).outputs = none) ∧
    (∀ (σ I O : Type) (fuel : Nat) (c : Client σ I O) (s : σ) (a : Actor I O),
      a.inputs = none → a.outputs = none →
      a.run fuel c s = (s, a, [], .ok)) := by
  refine ⟨fun I O ni no => ⟨rfl, rfl⟩, ?_⟩
  intro σ I O fuel c s a h1 h2
  simp [Actor.run, h1, h2]

theorem c6_witness :
    (Actor.new Int Int 0 0).inputs = none ∧
    (Actor.new Int Int 0 0).outputs = none ∧
    Actor.run 7 constClient () (Actor.new Int Int 0 0) =
      ((), Actor.new Int Int 0 0, [], .ok) :=
  ⟨(c6_no_ports_noop_run.1 Int Int 0 0).1,
    (c6_no_ports_noop_run.1 Int Int 0 0).2,
    c6_no_ports_noop_run.2 Unit Int Int 7 constClient () (Actor.new Int Int 0 0)
      rfl rfl⟩

/-- C9: calling `distribute` with `Some(data)` on an actor whose `outputs`
is `None` panics inside `set_data`'s `unwrap` (before the `ok_or(NoOutputs)`
check is reached), and consequently `distribute` can never return the
`NoOutputs` error. -/
theorem c9_distribute_panics_before_nooutputs :
    (∀ (I O : Type) (a : Actor I O) (ds : List O), a.outputs = none →
      a.distribute (some ds) = (a, [], .error .panicked)) ∧
    (∀ (I O : Type) (a : Actor I O) (d : Option (List O)),
      (a.distribute d).2.2 ≠ .error (.err .noOutputs)) := by
  constructor
  · intro I O a ds h
    simp [Actor.distribute, Actor.set_data, h]
  · intro I O a d
    cases d with
    | none => simp [Actor.distribute]
    | some ds =>
      cases houts : a.outputs with
      | none => simp [Actor.distribute, Actor.set_data, houts]
      | some outs =>
        rw [distribute_some a outs ds houts]
        by_cases hb : (sendAll (I := I) 0 (setDataList outs ds)).2.2 = true
        · simp [hb]
        · simp [Bool.eq_false_iff.mpr hb]

theorem c9_witness :
    (Actor.new Int Int 0 0).distribute (some [5]) =
      (Actor.new Int Int 0 0, [], .error .panicked) ∧
    ((Actor.new Int Int 0 0).distribute none).2.2 ≠
      .error (.err .noOutputs) :=
  ⟨c9_distribute_panics_before_nooutputs.1 Int Int (Actor.new Int Int 0 0) [5] rfl,
    c9_distribute_panics_before_nooutputs.2 Int Int (Actor.new Int Int 0 0) none⟩

/-- C10: `set_data` zips outputs with the new payload vector — the first
`min` outputs get the new payloads, the remaining outputs keep their cached
payload (and the following sends broadcast exactly each output's cached
payload, so the untouched ones are re-sent as-is), and surplus payloads are
silently discarded (the output list keeps its length). -/
theorem c10_set_data_zip_frame :
    (∀ (O : Type) (outs : List (Output O)) (ds : List O),
      setDataList outs ds =
        ((outs.zip ds).map fun p => { p.1 with data := p.2 }) ++
          outs.drop ds.length) ∧
    (∀ (O : Type) (outs : List (Output O)) (ds : List O),
      (setDataList outs ds).length = outs.length) ∧
    (∀ (O : Type) (outs : List (Output O)) (ds : List O),
      (setDataList outs ds).drop ds.length = outs.drop ds.length) ∧
    (∀ (I O : Type) (a : Actor I O) (outs : List (Output O)) (ds : List O),
      a.outputs = some outs →
      (a.distribute (some ds)).2.1 =
        (setDataList outs ds).enum.map fun p => Event.send p.1 p.2.data) := by
  refine ⟨fun O outs ds => setDataList_eq outs ds,
    fun O outs ds => setDataList_length outs ds,
    fun O outs ds => setDataList_drop outs ds, ?_⟩
  intro I O a outs ds houts
  rw [distribute_some a outs ds houts]
  simp [sendAll_trace, List.enum]

theorem c10_witness :
    (({ inputs := none, outputs := some [{ data := 1, tx := [] }, { data := 2, tx := [] }], ni := 0, no := 1 } : Actor Int Int).distribute
        (some [9])).2.1 =
      (setDataList ([{ data := 1, tx := [] }, { data := 2, tx := [] }] : List (Output Int)) ([9] : List Int)).enum.map
        (fun p => Event.send p.1 p.2.data) :=
  c10_set_data_zip_frame.2.2.2 Int Int
    { inputs := none, outputs := some [{ data := 1, tx := [] }, { data := 2, tx := [] }], ni := 0, no := 1 }
    ([{ data := 1, tx := [] }, { data := 2, tx := [] }] : List (Output Int)) ([9] : List Int) rfl

/-- C3: for an actor with both ports and `NO >= NI` (with `NI >= 1`), `run`
is the decimation loop over `decimBody`, and each (completed) decimation
iteration performs exactly `NO / NI` repetitions of (receive every input in
order, hand the gathered data to `consume`, `update`) followed by one
`produce` and exactly one send on every output. -/
theorem c3_decimation_loop_structure :
    (∀ (σ I O : Type) (fuel : Nat) (c : Client σ I O) (s : σ) (a : Actor I O)
      (ins : List (Input I)) (outs : List (Output O)),
      a.inputs = some ins → a.outputs = some outs → a.ni ≤ a.no → a.ni ≠ 0 →
      a.run fuel c s = loopBody (decimBody c (a.no / a.ni)) fuel (s, a)) ∧
    (∀ (σ I O : Type) (c : Client σ I O) (reps : Nat) (s : σ) (a : Actor I O)
      (ins : List (Input I)) (outs : List (Output O)),
      a.inputs = some ins → a.outputs = some outs →
      (∀ inp ∈ ins, reps ≤ inp.queue.length) →
      (∀ st : σ, ((c.produce st).2).isSome) →
      ∃ s' a' evs r,
        decimBody c reps (s, a) = (s', a', evs, r) ∧
        evs.map Event.tag =
          (List.replicate reps ((List.range' 0 ins.length).map Tag.recvT ++
            [Tag.consumeT, Tag.updateT])).flatten ++
          Tag.produceT :: (List.range' 0 outs.length).map Tag.sendT) :=
  ⟨fun σ I O fuel c s a ins outs h1 h2 h3 h4 =>
      run_decim_eq fuel c s a ins outs h1 h2 h3 h4,
    fun σ I O c reps s a ins outs h1 h2 h3 h4 =>
      decimBody_structure c reps s a ins outs h1 h2 h3 h4⟩

theorem c3_witness :
    (Actor.run 1 sumClient 0 (sumActorSt [] [[1], [2]] [] [] 2) =
      loopBody (decimBody sumClient (2 / 1)) 1
        (0, sumActorSt [] [[1], [2]] [] [] 2)) ∧
    (∃ s' a' evs r,
      decimBody sumClient 2 (0, sumActorSt [] [[1], [2]] [] [] 2) =
        (s', a', evs, r) ∧
      evs.map Event.tag =
        (List.replicate 2 ((List.range' 0 1).map Tag.recvT ++
          [Tag.consumeT, Tag.updateT])).flatten ++
        Tag.produceT :: (List.range' 0 1).map Tag.sendT) :=
  ⟨c3_decimation_loop_structure.1 Int (List Int) (List Int) 1 sumClient 0
      (sumActorSt [] [[1], [2]] [] [] 2) _ _ rfl rfl (by decide) (by decide),
    c3_decimation_loop_structure.2 Int (List Int) (List Int) sumClient 2 0
      (sumActorSt [] [[1], [2]] [] [] 2) _ _ rfl rfl (by decide)
      (fun st => rfl)⟩

/-- C4: for an actor with both ports and `NI > NO` (with `NO >= 1`), `run`
is the upsampling loop over `upsampleBody`; each iteration performs one
(receive-all, `consume`, `update`) followed by `NI / NO` rounds of
`produce` + send-every-output; and with the `Sampler` client at `NI = k`,
`NO = 1`, one iteration emits the received payload exactly `k` times in
succession on the output channel (the first round drains the sampler and
caches the payload, the remaining rounds re-broadcast the cache). -/
theorem c4_upsampling_structure_and_sampler :
    (∀ (σ I O : Type) (fuel : Nat) (c : Client σ I O) (s : σ) (a : Actor I O)
      (ins : List (Input I)) (outs : List (Output O)),
      a.inputs = some ins → a.outputs = some outs → a.no < a.ni → a.no ≠ 0 →
      a.run fuel c s = loopBody (upsampleBody c (a.ni / a.no)) fuel (s, a)) ∧
    (∀ (σ I O : Type) (c : Client σ I O) (reps : Nat) (s : σ) (a : Actor I O)
      (ins : List (Input I)) (outs : List (Output O)),
      a.inputs = some ins → a.outputs = some outs →
      (∀ inp ∈ ins, inp.queue ≠ []) → outsOpen outs →
      (∀ st : σ, ((c.produce st).2).isSome) →
      ∃ s' a' evs,
        upsampleBody c reps (s, a) = (s', a', evs, none) ∧
        evs.map Event.tag =
          (List.range' 0 ins.length).map Tag.recvT ++
            [Tag.consumeT, Tag.updateT] ++
            (List.replicate reps (Tag.produceT ::
              (List.range' 0 outs.length).map Tag.sendT)).flatten) ∧
    (∀ (T : Type) (k : Nat), 2 ≤ k →
      ∀ (d x : T) (q : List T) (sOpen : Bool) (y : T) (sent : List T),
      ∃ evs, upsampleBody (samplerClient T) k
          (([] : List T), samplerActorSt d (x :: q) sOpen y sent k) =
        ([], samplerActorSt x q sOpen x (sent ++ List.replicate k x) k,
          evs, none)) :=
  ⟨fun σ I O fuel c s a ins outs h1 h2 h3 h4 =>
      run_upsample_eq fuel c s a ins outs h1 h2 h3 h4,
    fun σ I O c reps s a ins outs h1 h2 h3 h4 h5 =>
      upsampleBody_structure c reps s a ins outs h1 h2 h3 h4 h5,
    fun T k hk d x q sOpen y sent =>
      samplerBody k (by omega) d x q sOpen y sent⟩

theorem c4_witness :
    (Actor.run 1 (samplerClient Int) [] (samplerActorSt 0 [5] true 9 [] 3) =
      loopBody (upsampleBody (samplerClient Int) (3 / 1)) 1
        ([], samplerActorSt 0 [5] true 9 [] 3)) ∧
    (∃ s' a' evs,
      upsampleBody (samplerClient Int) 2
          (([] : List Int), samplerActorSt 0 [5] true 9 [] 3) =
        (s', a', evs, none) ∧
      evs.map Event.tag =
        (List.range' 0 1).map Tag.recvT ++ [Tag.consumeT, Tag.updateT] ++
          (List.replicate 2 (Tag.produceT ::
            (List.range' 0 1).map Tag.sendT)).flatten) ∧
    (∃ evs, upsampleBody (samplerClient Int) 3
        (([] : List Int), samplerActorSt 0 (5 :: [8]) true 9 [] 3) =
      ([], samplerActorSt 5 [8] true 5 ([] ++ List.replicate 3 5) 3,
        evs, none)) :=
  ⟨c4_upsampling_structure_and_sampler.1 (List Int) Int Int 1 (samplerClient Int)
      [] (samplerActorSt 0 [5] true 9 [] 3) _ _ rfl rfl (by decide) (by decide),
    c4_upsampling_structure_and_sampler.2.1 (List Int) Int Int (samplerClient Int)
      2 [] (samplerActorSt 0 [5] true 9 [] 3) _ _ rfl rfl (by decide)
      (by unfold outsOpen; decide) (fun st => rfl),
    c4_upsampling_structure_and_sampler.2.2 Int 3 (by decide) 0 5 [8] true 9 []⟩

/-- C5: the summing actor with `NI = 1`, `NO = k` over a pre-loaded input
sequence of `n * k` singleton payload vectors emits exactly the length-`k`
block sums of the input (one singleton vector per iteration) and exits with
the graceful `DropRecv` once the closed queue is exhausted; concretely, the
Sc2 pipeline (initiator `[10, 20, 30, 40]` → summing actor with `k = 2` →
`Logging` terminator) logs the payload vectors `[[30], [70]]`, i.e. the
scalar sequence `[30, 70]`. -/
theorem c5_decimation_blocksums_and_sc2_log :
    (∀ (k n : Nat) (xs : List Int), 1 ≤ k → xs.length = n * k →
      ∃ accF d' y' evs,
        Actor.run (n + 1) sumClient 0
            (sumActorSt [] (xs.map fun x => [x]) [] [] k) =
          (accF, sumActorSt d' [] y'
              ((blockSums k n xs).map fun b => [b]) k,
            evs, .halt (.err .dropRecv))) ∧
    (pipelineLog = [[30], [70]] ∧ pipelineLog.flatten = [30, 70]) := by
  constructor
  · intro k n xs hk hlen
    have hrun : Actor.run (n + 1) sumClient 0
        (sumActorSt [] (xs.map fun x => [x]) [] [] k) =
      loopBody (decimBody sumClient
          ((sumActorSt [] (xs.map fun x => [x]) [] [] k).no /
            (sumActorSt [] (xs.map fun x => [x]) [] [] k).ni)) (n + 1)
        (0, sumActorSt [] (xs.map fun x => [x]) [] [] k) :=
      run_decim_eq (n + 1) sumClient 0 _ _ _ rfl rfl hk Nat.one_ne_zero
    have hd : (sumActorSt [] (xs.map fun x => [x]) [] [] k).no /
        (sumActorSt [] (xs.map fun x => [x]) [] [] k).ni = k := Nat.div_one k
    obtain ⟨accF, d', y', evs, heq⟩ :=
      sumLoop n k 0 [] [] (xs.map fun x => [x]) [] hk (by simp [hlen])
    refine ⟨accF, d', y', evs, ?_⟩
    rw [hrun, hd, heq, List.nil_append, sumEmits_blockSums k n xs]
  · exact ⟨rfl, rfl⟩

theorem c5_witness :
    ∃ accF d' y' evs,
      Actor.run 3 sumClient 0
          (sumActorSt [] ([10, 20, 30, 40].map fun x => [x]) [] [] 2) =
        (accF, sumActorSt d' [] y'
            ((blockSums 2 2 [10, 20, 30, 40]).map fun b => [b]) 2,
          evs, .halt (.err .dropRecv)) :=
  c5_decimation_blocksums_and_sc2_log.1 2 2 [10, 20, 30, 40] (by decide)
    (by decide)

/-- C7: within one actor step the inputs are received (and then handed to
the client's `consume`) in their registration order, and the outputs are
sent in their registration order — the event tags of `collectConsume` are
`recv 0, recv 1, ..., consume, update` and those of `distribute` are
`send 0, send 1, ...` (sends never suspend on our queue channels, so
`join_all` completes them in list order). -/
theorem c7_port_order :
    (∀ (σ I O : Type) (c : Client σ I O) (s : σ) (a : Actor I O)
      (ins : List (Input I)), a.inputs = some ins →
      (∀ inp ∈ ins, inp.queue ≠ []) →
      ((collectConsume c (s, a)).2.2.1).map Event.tag =
        (List.range' 0 ins.length).map Tag.recvT ++
          [Tag.consumeT, Tag.updateT]) ∧
    (∀ (I O : Type) (a : Actor I O) (outs : List (Output O)) (ds : List O),
      a.outputs = some outs →
      ((a.distribute (some ds)).2.1).map Event.tag =
        (List.range' 0 outs.length).map Tag.sendT) := by
  constructor
  · intro σ I O c s a ins hins hnq
    rw [collectConsume_ok c s a ins hins hnq]
    simp [Event.tag, recvEvts_tags]
  · intro I O a outs ds houts
    rw [distribute_some a outs ds houts]
    simp [sendAll_tags, setDataList_length]

theorem c7_witness :
    (((collectConsume (samplerClient Int)
        (([] : List Int), { inputs := some [{ data := 0, queue := [1], senderOpen := true }, { data := 0, queue := [2], senderOpen := true }], outputs := none, ni := 1, no := 1 })).2.2.1).map Event.tag =
      (List.range' 0 2).map Tag.recvT ++ [Tag.consumeT, Tag.updateT]) ∧
    ((({ inputs := none, outputs := some [{ data := 5, tx := [] }, { data := 6, tx := [] }, { data := 7, tx := [] }], ni := 1, no := 1 } : Actor Int Int).distribute
        (some [8])).2.1).map Event.tag =
      (List.range' 0 3).map Tag.sendT :=
  ⟨c7_port_order.1 (List Int) Int Int (samplerClient Int) []
      { inputs := some [{ data := 0, queue := [1], senderOpen := true }, { data := 0, queue := [2], senderOpen := true }], outputs := none, ni := 1, no := 1 }
      _ rfl (by decide),
    c7_port_order.2 Int Int
      { inputs := none, outputs := some [{ data := 5, tx := [] }, { data := 6, tx := [] }, { data := 7, tx := [] }], ni := 1, no := 1 }
      _ [8] rfl⟩

/-- C8: one `io.rs` `send` on an output with fan-out degree `K` applies the
client's `write` exactly once (the resulting client state is one `write`
step from the initial one), allocates exactly one fresh `Arc` (the
allocation counter advances by one, not by `K`), delivers that same
reference `(ctr, v)` to all `K` receivers, caches the same reference in the
output, and returns `Ok`. -/
theorem c8_fanout_shared_arc_single_write :
    ∀ (σ T : Type) (write : σ → σ × Option T) (s s' : σ) (v : T) (ctr : Nat)
      (o : io.Output T), write s = (s', some v) →
      (∀ c ∈ o.tx, c.receiverOpen = true) →
      io.Output.send write s ctr o =
        { clientState := s'
          arcCtr := ctr + 1
          output := { o with
            data := some (ctr, v)
            tx := o.tx.map fun c => { c with sent := c.sent ++ [(ctr, v)] } }
          result := .ok () } := by
  intro σ T write s s' v ctr o hw hopen
  have h1 : (o.tx.map fun c =>
      if c.receiverOpen then { c with sent := c.sent ++ [(ctr, v)] } else c)
      = o.tx.map fun c => { c with sent := c.sent ++ [(ctr, v)] } :=
    List.map_congr_left fun c hc => by simp [hopen c hc]
  have h2 : o.tx.all (·.receiverOpen) = true := by
    rw [List.all_eq_true]
    exact fun c hc => by simp [hopen c hc]
  simp [io.Output.send, hw, h1, h2]

theorem c8_witness :
    io.Output.send (fun (n : Nat) => (n + 1, some (42 : Int))) 0 7
        { data := none
          tx := [{ sent := [], senderOpen := true, receiverOpen := true }, { sent := [(3, 1)], senderOpen := true, receiverOpen := true }]
          bootstrap := false
          who := "Sig" } =
      { clientState := 1
        arcCtr := 8
        output := { data := some (7, 42), tx := [{ sent := [(7, 42)], senderOpen := true, receiverOpen := true }, { sent := [(3, 1), (7, 42)], senderOpen := true, receiverOpen := true }], bootstrap := false, who := "Sig" }
        result := .ok () } := by
  have h := c8_fanout_shared_arc_single_write Nat Int
    (fun n => (n + 1, some 42)) 0 1 42 7
    { data := none
      tx := [{ sent := [], senderOpen := true, receiverOpen := true }, { sent := [(3, 1)], senderOpen := true, receiverOpen := true }]
      bootstrap := false
      who := "Sig" } rfl (by decide)
  simpa using h

end DosActors
